import Mathlib

/-!
# Production Maestro Agent — verification of the scheduling and metrics engine

Shallow embedding of `main.py`: the order data model, the schedule metrics
calculator (`calculate_schedule_metrics`), the sequencing agent
(`run_maestro_agent`, a stable merge sort on the chassis-type column), the
order generator (`get_production_orders`), and the session-state transitions
of the two UI buttons (run agent / generate new order list), together with
theorems settling the specification's claims about them.

Numeric modelling: Python integers are `ℕ`/`ℤ`; Python float division is
modelled exactly over `ℚ`, with a genuine `0/0` (which in the source either
raises or yields NaN) modelled as `Option.none`.  Python `int()` truncates
toward zero, modelled by `pyInt`.  The ambient random source of
`random.choice` / `random.randint` is modelled by explicit sampling functions
that the generator consumes, with range constraints enforced by modular
arithmetic exactly matching the documented inclusive ranges.
-/

namespace Maestro

/-- One production order: one row of the DataFrame built by
`get_production_orders` in `main.py`. -/
structure Order where
  OrderID : String
  Chassis_Type : String
  Quantity : ℕ
  Profit_Per_Unit : ℕ
  Production_Time_Mins : ℕ
deriving DecidableEq, Repr

/-- `SETUP_TIME_MINS = 60`, the line-changeover constant of `main.py`. -/
def SETUP_TIME_MINS : ℕ := 60

/-- `MINS_PER_SHIFT = 480` (informational only in the source). -/
def MINS_PER_SHIFT : ℕ := 480

/-- The result dictionary of `calculate_schedule_metrics`. -/
structure Metrics where
  total_time : ℕ
  setup_time : ℕ
  production_time : ℕ
deriving DecidableEq, Repr

/-- The `for index, row in schedule_df.iterrows()` loop of
`calculate_schedule_metrics`: accumulate `SETUP_TIME_MINS` whenever
`last_chassis is not None and row.Chassis_Type != last_chassis`,
then set `last_chassis = row.Chassis_Type`. -/
def setupLoop (last : Option String) : List Order → ℕ
  | [] => 0
  | row :: rest =>
      (match last with
       | none => 0
       | some c => if row.Chassis_Type ≠ c then SETUP_TIME_MINS else 0)
      + setupLoop (some row.Chassis_Type) rest

/-- `calculate_schedule_metrics(schedule_df)` from `main.py`:
total production time is the column sum, setup time comes from the
`last_chassis` loop, and `total_time` is their sum. -/
def calculate_schedule_metrics (schedule_df : List Order) : Metrics :=
  let total_production_time := (schedule_df.map Order.Production_Time_Mins).sum
  let total_setup_time := setupLoop none schedule_df
  { total_time := total_production_time + total_setup_time
    setup_time := total_setup_time
    production_time := total_production_time }

/-- The sort key of `sort_values(by=Chassis_Type)`: lexicographic comparison
of the chassis-type strings by their character data, as pandas compares
Python strings. -/
def chassisLE (a b : Order) : Bool := decide (a.Chassis_Type.data ≤ b.Chassis_Type.data)

/-- The fixed reasoning message returned by `run_maestro_agent`. -/
def maestroReasoning : String :=
  "Agent analyzed all orders and identified **Chassis Type** as the primary driver of setup time. It has re-sequenced the queue to group similar chassis builds together, minimizing line changeovers."

/-- `run_maestro_agent(df)` from `main.py`: a stable merge sort
(`sort_values(by=Chassis_Type, kind=mergesort)`) plus the fixed
reasoning string. -/
def run_maestro_agent (df : List Order) : List Order × String :=
  (df.mergeSort chassisLE, maestroReasoning)

/-- Number of adjacent positions in a list of chassis types where the type
differs from its predecessor. -/
def changes : List String → ℕ
  | a :: b :: rest => (if b ≠ a then 1 else 0) + changes (b :: rest)
  | _ => 0

/-- A small concrete batch (chassis types Office Mini / Gaming Tower /
Office Mini) used to instantiate theorems on concrete data. -/
def demoBatch : List Order :=
  [⟨"WO-01", "Office Mini", 10, 100, 20⟩,
   ⟨"WO-02", "Gaming Tower", 10, 100, 30⟩,
   ⟨"WO-03", "Office Mini", 10, 100, 20⟩]

/-- `time_saved` as computed in the run-agent handler of `main.py`:
baseline grand total minus optimized grand total. -/
def timeSavedOf (df : List Order) : ℤ :=
  ((calculate_schedule_metrics df).total_time : ℤ)
    - ((calculate_schedule_metrics (run_maestro_agent df).1).total_time : ℤ)

/-- The fixed chassis-type list of `get_production_orders`. -/
def chassis_types : List String := ["Gaming Tower", "Office Mini", "All-in-One"]

/-- `get_production_orders()` from `main.py`, with the ambient `random`
module modelled by explicit sampling streams: `randChassis i` selects which
of the three chassis types order `i` receives (`random.choice`), and
`randQty`, `randProfitG`, `randProfitO` supply the `random.randint` draws,
reduced by modular arithmetic onto the inclusive ranges 10–50, 150–400 and
80–120 that the source requests. -/
def get_production_orders (randChassis : ℕ → Fin 3)
    (randQty randProfitG randProfitO : ℕ → ℕ) : List Order :=
  (List.range 10).map fun i =>
    let chassis := chassis_types.getD (randChassis i : ℕ) "Gaming Tower"
    let quantity := 10 + randQty i % 41
    let profit :=
      if chassis = "Gaming Tower" then 150 + randProfitG i % 251 else 80 + randProfitO i % 41
    { OrderID := "WO-0" ++ toString (i + 1)
      Chassis_Type := chassis
      Quantity := quantity
      Profit_Per_Unit := profit
      Production_Time_Mins := quantity * 2 }

/-- Rational division guarded against a zero denominator, modelling the
fact that the source's float division of two column sums is only meaningful
when the denominator is non-zero (`0/0` raises or yields NaN in Python). -/
def safeDiv (a b : ℚ) : Option ℚ := if b = 0 then none else some (a / b)

/-- `units_per_min` from the tangible-benefit section of `main.py`:
Quantity column sum divided by Production_Time_Mins column sum. -/
def units_per_min (orders : List Order) : Option ℚ :=
  safeDiv ((orders.map fun o => (o.Quantity : ℚ)).sum)
          ((orders.map fun o => (o.Production_Time_Mins : ℚ)).sum)

/-- Python `int()` applied to a rational: truncation toward zero. -/
def pyInt (q : ℚ) : ℤ := if 0 ≤ q then ⌊q⌋ else ⌈q⌉

/-- `additional_units = int(time_saved * units_per_min)` from the
tangible-benefit section. -/
def additional_units (orders : List Order) : Option ℤ :=
  (units_per_min orders).map fun u => pyInt ((timeSavedOf orders : ℚ) * u)

/-- pandas Series `.mean()` of the Profit_Per_Unit column; `none` models the
NaN produced on an empty column. -/
def mean_profit (orders : List Order) : Option ℚ :=
  if orders = [] then none
  else some (((orders.map fun o => (o.Profit_Per_Unit : ℚ)).sum) / orders.length)

/-- One element of `st.session_state.history`. -/
structure RunRecord where
  Run : ℕ
  TimeSavedMins : ℤ
  AdditionalProfit : ℚ
deriving DecidableEq, Repr

/-- The session state of `main.py`: current order batch, optimized schedule
(absent until the agent runs), reasoning string, and run history. -/
structure SessionState where
  orders : List Order
  optimized_schedule : Option (List Order)
  reasoning : Option String
  history : List RunRecord
deriving Repr

/-- The additional-profit expression of the run-agent button handler:
`avg_profit_per_min = mean(Profit_Per_Unit) / 2`,
`additional_profit = time_saved * avg_profit_per_min`, stored via
`additional_profit if additional_profit > 0 else 0`.  A NaN mean (empty
column) fails the `> 0` comparison, so `0` is stored in that case too. -/
def storedAdditionalProfit (orders : List Order) (time_saved : ℤ) : ℚ :=
  match mean_profit orders with
  | none => 0
  | some m =>
      let avg_profit_per_min := m / 2
      let additional_profit := (time_saved : ℚ) * avg_profit_per_min
      if 0 < additional_profit then additional_profit else 0

/-- The "Run Production Maestro Agent" button handler of `main.py`: set the
optimized schedule and reasoning, and append one history record. -/
def runAgentStep (s : SessionState) : SessionState :=
  let optimized_df := (run_maestro_agent s.orders).1
  let reasoning := (run_maestro_agent s.orders).2
  let time_saved := timeSavedOf s.orders
  let run_number := s.history.length + 1
  { s with
      optimized_schedule := some optimized_df
      reasoning := some reasoning
      history := s.history ++
        [{ Run := run_number
           TimeSavedMins := time_saved
           AdditionalProfit := storedAdditionalProfit s.orders time_saved }] }

/-- The "Generate New Order List" button handler of `main.py`: replace the
batch, clear the optimized schedule and reasoning, empty the history. -/
def generateNewOrderList (_s : SessionState) (newOrders : List Order) : SessionState :=
  { orders := newOrders
    optimized_schedule := none
    reasoning := none
    history := [] }

/-- Session initialization (the `if orders not in st.session_state` block). -/
def initState (orders : List Order) : SessionState :=
  { orders := orders
    optimized_schedule := none
    reasoning := none
    history := [] }

/-- Session states reachable from initialization via the two buttons. -/
inductive Reachable : SessionState → Prop
  | init (orders : List Order) : Reachable (initState orders)
  | run {s : SessionState} : Reachable s → Reachable (runAgentStep s)
  | regen {s : SessionState} (newOrders : List Order) :
      Reachable s → Reachable (generateNewOrderList s newOrders)

/-- The specification's per-run additional-profit formula (the
units-per-minute derivation the spec selects):
`max(0, floor(time_saved * units_per_minute) * mean(profit_per_unit))`,
with the rate defined as zero on zero total production time and the mean
read as zero on an empty batch. -/
def specAdditionalProfit (orders : List Order) (time_saved : ℤ) : ℚ :=
  let upm : ℚ := match units_per_min orders with | none => 0 | some u => u
  let units : ℤ := ⌊(time_saved : ℚ) * upm⌋
  let avg : ℚ := match mean_profit orders with | none => 0 | some m => m
  max 0 ((units : ℚ) * avg)

lemma chassisLE_trans : ∀ a b c : Order, chassisLE a b → chassisLE b c → chassisLE a c := by
  intro a b c hab hbc
  simp only [chassisLE, decide_eq_true_eq] at *
  exact le_trans hab hbc

lemma chassisLE_total : ∀ a b : Order, chassisLE a b || chassisLE b a := by
  intro a b
  simp only [chassisLE, Bool.or_eq_true, decide_eq_true_eq]
  exact le_total _ _

lemma setupLoop_some (c : String) (l : List Order) :
    setupLoop (some c) l = SETUP_TIME_MINS * changes (c :: l.map Order.Chassis_Type) := by
  induction l generalizing c with
  | nil => simp [setupLoop, changes]
  | cons row rest ih =>
      simp only [setupLoop, List.map_cons, changes, ih row.Chassis_Type, Nat.mul_add]
      by_cases h : row.Chassis_Type = c <;> simp [h]

lemma setup_time_eq_changes (l : List Order) :
    (calculate_schedule_metrics l).setup_time
      = SETUP_TIME_MINS * changes (l.map Order.Chassis_Type) := by
  cases l with
  | nil => simp [calculate_schedule_metrics, setupLoop, changes]
  | cons row rest =>
      simp [calculate_schedule_metrics, setupLoop, setupLoop_some]

lemma production_time_eq (l : List Order) :
    (calculate_schedule_metrics l).production_time = (l.map Order.Production_Time_Mins).sum := rfl

lemma total_time_eq (l : List Order) :
    (calculate_schedule_metrics l).total_time
      = (calculate_schedule_metrics l).production_time + (calculate_schedule_metrics l).setup_time := rfl

example :
    (calculate_schedule_metrics
      [⟨"WO-01", "Office Mini", 10, 100, 20⟩,
       ⟨"WO-02", "Gaming Tower", 20, 200, 40⟩,
       ⟨"WO-03", "Office Mini", 15, 100, 30⟩]).setup_time = 120 := by decide

example :
    (run_maestro_agent
      [⟨"WO-01", "Office Mini", 10, 100, 20⟩,
       ⟨"WO-02", "Gaming Tower", 20, 200, 40⟩,
       ⟨"WO-03", "Office Mini", 15, 100, 30⟩]).1
    = [⟨"WO-02", "Gaming Tower", 20, 200, 40⟩,
       ⟨"WO-01", "Office Mini", 10, 100, 20⟩,
       ⟨"WO-03", "Office Mini", 15, 100, 30⟩] := by
  simp +decide [run_maestro_agent, List.mergeSort, List.merge, chassisLE]

lemma chassisLE_iff (a b : Order) : chassisLE a b = true ↔ a.Chassis_Type ≤ b.Chassis_Type := by
  simp [chassisLE, String.le_iff_toList_le, String.toList]

lemma changes_of_sorted : ∀ l : List String, l.Pairwise (· ≤ ·) → l ≠ [] →
    changes l + 1 = l.toFinset.card
  | [], _, h => absurd rfl h
  | [_], _, _ => by simp [changes]
  | a :: b :: rest, hp, _ => by
      obtain ⟨ha, htail⟩ := List.pairwise_cons.mp hp
      have hbr : ∀ x ∈ rest, b ≤ x := (List.pairwise_cons.mp htail).1
      have ih := changes_of_sorted (b :: rest) htail (by simp)
      by_cases hab : b = a
      · subst hab
        simpa [changes, List.toFinset_cons, Finset.insert_idem] using ih
      · have hanotin : a ∉ (b :: rest).toFinset := by
          simp only [List.toFinset_cons, Finset.mem_insert, List.mem_toFinset]
          rintro (rfl | hx)
          · exact hab rfl
          · exact hab (le_antisymm (hbr a hx) (ha b (by simp)))
        have hcard : (a :: b :: rest).toFinset.card = (b :: rest).toFinset.card + 1 := by
          rw [List.toFinset_cons]
          exact Finset.card_insert_of_not_mem hanotin
        have hch : changes (a :: b :: rest) = 1 + changes (b :: rest) := by
          simp [changes, hab]
        omega

lemma card_le_changes : ∀ l : List String, l ≠ [] → l.toFinset.card ≤ changes l + 1
  | [], h => absurd rfl h
  | [_], _ => by simp [changes]
  | a :: b :: rest, _ => by
      have ih := card_le_changes (b :: rest) (by simp)
      by_cases hab : b = a
      · subst hab
        simpa [changes, List.toFinset_cons, Finset.insert_idem] using ih
      · have hcard : (a :: b :: rest).toFinset.card ≤ (b :: rest).toFinset.card + 1 := by
          rw [List.toFinset_cons]
          exact Finset.card_insert_le _ _
        have hch : changes (a :: b :: rest) = 1 + changes (b :: rest) := by
          simp [changes, hab]
        omega

lemma mergeSort_types_sorted (df : List Order) :
    ((df.mergeSort chassisLE).map Order.Chassis_Type).Pairwise (· ≤ ·) := by
  have h := List.sorted_mergeSort chassisLE_trans chassisLE_total df
  exact List.Pairwise.map _ (fun a b hab => (chassisLE_iff a b).mp hab) h

/-- Setup time of the agent-optimized schedule: one changeover per distinct
chassis type beyond the first. -/
lemma optimized_setup (df : List Order) (hne : df ≠ []) :
    (calculate_schedule_metrics (df.mergeSort chassisLE)).setup_time
      = ((df.map Order.Chassis_Type).toFinset.card - 1) * SETUP_TIME_MINS := by
  have hperm : List.Perm (df.mergeSort chassisLE) df := List.mergeSort_perm df chassisLE
  have hne' : (df.mergeSort chassisLE).map Order.Chassis_Type ≠ [] := by
    simp only [ne_eq, List.map_eq_nil_iff, ← List.length_eq_zero, List.length_mergeSort]
    simpa [List.length_eq_zero] using hne
  have hs := changes_of_sorted _ (mergeSort_types_sorted df) hne'
  have hfin : ((df.mergeSort chassisLE).map Order.Chassis_Type).toFinset
      = (df.map Order.Chassis_Type).toFinset :=
    List.toFinset_eq_of_perm _ _ (hperm.map _)
  rw [setup_time_eq_changes]
  rw [hfin] at hs
  rw [Nat.mul_comm, ← hs]
  simp

/-- Any schedule over orders covering `d` distinct chassis types pays at
least `d - 1` changeovers. -/
lemma setup_lower_bound (l : List Order) (hne : l ≠ []) :
    ((l.map Order.Chassis_Type).toFinset.card - 1) * SETUP_TIME_MINS
      ≤ (calculate_schedule_metrics l).setup_time := by
  rw [setup_time_eq_changes]
  have h := card_le_changes (l.map Order.Chassis_Type) (by simp [hne])
  have : (l.map Order.Chassis_Type).toFinset.card - 1 ≤ changes (l.map Order.Chassis_Type) := by
    omega
  calc ((l.map Order.Chassis_Type).toFinset.card - 1) * SETUP_TIME_MINS
      ≤ changes (l.map Order.Chassis_Type) * SETUP_TIME_MINS :=
        Nat.mul_le_mul_right _ this
    _ = SETUP_TIME_MINS * changes (l.map Order.Chassis_Type) := Nat.mul_comm _ _

lemma production_perm {l l' : List Order} (h : List.Perm l l') :
    (calculate_schedule_metrics l).production_time
      = (calculate_schedule_metrics l').production_time :=
  (h.map _).sum_eq

lemma filter_chassis_pairwise (df : List Order) (t : String) :
    (df.filter fun o => decide (o.Chassis_Type = t)).Pairwise (fun a b => chassisLE a b = true) := by
  apply List.pairwise_of_forall_mem_list
  intro a ha b hb
  have ha' := List.of_mem_filter ha
  have hb' := List.of_mem_filter hb
  simp only [decide_eq_true_eq] at ha' hb'
  simp [chassisLE, ha', hb']

/-- Stability of the agent's merge sort: each chassis-type class keeps its
original relative order (its filtered subsequence is unchanged). -/
lemma mergeSort_filter_chassis (df : List Order) (t : String) :
    ((df.mergeSort chassisLE).filter fun o => decide (o.Chassis_Type = t))
      = df.filter fun o => decide (o.Chassis_Type = t) := by
  have hsub : List.Sublist (df.filter (fun o => decide (o.Chassis_Type = t))) df :=
    List.filter_sublist df
  have hsub2 : List.Sublist (df.filter (fun o => decide (o.Chassis_Type = t)))
      (df.mergeSort chassisLE) :=
    List.sublist_mergeSort chassisLE_trans chassisLE_total (filter_chassis_pairwise df t) hsub
  have hsub3 : List.Sublist (df.filter (fun o => decide (o.Chassis_Type = t)))
      ((df.mergeSort chassisLE).filter (fun o => decide (o.Chassis_Type = t))) := by
    have h := hsub2.filter (fun o => decide (o.Chassis_Type = t))
    rwa [List.filter_filter, List.filter_congr (by intro a _; rw [Bool.and_self])] at h
  have hlen : ((df.mergeSort chassisLE).filter (fun o => decide (o.Chassis_Type = t))).length
      = (df.filter (fun o => decide (o.Chassis_Type = t))).length :=
    ((List.mergeSort_perm df chassisLE).filter _).length_eq
  exact (hsub3.eq_of_length hlen.symm).symm

lemma changes_eq_countP : ∀ l : List Order,
    changes (l.map Order.Chassis_Type)
      = (l.zip l.tail).countP (fun p => decide (p.2.Chassis_Type ≠ p.1.Chassis_Type))
  | [] => rfl
  | [_] => rfl
  | a :: b :: rest => by
      have ih := changes_eq_countP (b :: rest)
      simp only [List.map_cons] at ih ⊢
      rw [show changes (a.Chassis_Type :: b.Chassis_Type :: List.map Order.Chassis_Type rest)
            = (if b.Chassis_Type ≠ a.Chassis_Type then 1 else 0)
              + changes (b.Chassis_Type :: List.map Order.Chassis_Type rest) from rfl,
        ih, List.tail_cons, List.tail_cons, List.zip_cons_cons, List.countP_cons]
      by_cases h : b.Chassis_Type = a.Chassis_Type
      · simp [h]
      · simp [h]
        omega

lemma optimized_total_le (df : List Order) :
    (calculate_schedule_metrics (run_maestro_agent df).1).total_time
      ≤ (calculate_schedule_metrics df).total_time := by
  rcases eq_or_ne df [] with rfl | hne
  · simp [run_maestro_agent]
  · have hprod := production_perm (List.mergeSort_perm df chassisLE)
    have hopt := optimized_setup df hne
    have hlb := setup_lower_bound df hne
    show (calculate_schedule_metrics (df.mergeSort chassisLE)).total_time ≤ _
    rw [total_time_eq (df.mergeSort chassisLE), total_time_eq df]
    omega

lemma timeSaved_nonneg (df : List Order) : 0 ≤ timeSavedOf df := by
  have h := optimized_total_le df
  simp only [timeSavedOf, sub_nonneg]
  exact_mod_cast h

lemma demoBatch_sorted :
    (run_maestro_agent demoBatch).1
      = [⟨"WO-02", "Gaming Tower", 10, 100, 30⟩,
         ⟨"WO-01", "Office Mini", 10, 100, 20⟩,
         ⟨"WO-03", "Office Mini", 10, 100, 20⟩] := by
  simp +decide [run_maestro_agent, demoBatch, List.mergeSort, List.merge, chassisLE]

lemma demoBatch_timeSaved : timeSavedOf demoBatch = 60 := by
  rw [timeSavedOf, demoBatch_sorted]
  decide

/-- C1: `calculate_schedule_metrics` charges the 60-minute constant exactly
once per position whose chassis type differs from its predecessor (the first
order, having no predecessor, is never charged), returns
`total_time = production_time + setup_time`, yields all-zero metrics on the
empty schedule, and zero setup time on any single-order schedule. -/
theorem C1_setup_accounting (schedule : List Order) :
    (calculate_schedule_metrics schedule).setup_time
        = SETUP_TIME_MINS *
            ((schedule.zip schedule.tail).countP
              fun p => decide (p.2.Chassis_Type ≠ p.1.Chassis_Type))
  ∧ (calculate_schedule_metrics schedule).total_time
        = (calculate_schedule_metrics schedule).production_time
          + (calculate_schedule_metrics schedule).setup_time
  ∧ calculate_schedule_metrics [] = ⟨0, 0, 0⟩
  ∧ ∀ o : Order, (calculate_schedule_metrics [o]).setup_time = 0 := by
  refine ⟨?_, rfl, rfl, fun o => rfl⟩
  rw [setup_time_eq_changes, changes_eq_countP]

/-- C2: on a batch with at least two orders and at least two distinct chassis
types, the agent's schedule pays exactly `(distinct types - 1)` changeovers,
no permutation of the batch pays fewer, and consequently `time_saved` is
non-negative on every batch. -/
theorem C2_grouping_minimal (df : List Order) (h2 : 2 ≤ df.length)
    (_hd : 2 ≤ (df.map Order.Chassis_Type).toFinset.card) :
    (calculate_schedule_metrics (run_maestro_agent df).1).setup_time
        = ((df.map Order.Chassis_Type).toFinset.card - 1) * SETUP_TIME_MINS
  ∧ (∀ other : List Order, List.Perm other df →
        (calculate_schedule_metrics (run_maestro_agent df).1).setup_time
          ≤ (calculate_schedule_metrics other).setup_time)
  ∧ ∀ batch : List Order, 0 ≤ timeSavedOf batch := by
  have hne : df ≠ [] := by
    intro h
    rw [h] at h2
    simp at h2
  refine ⟨optimized_setup df hne, ?_, fun batch => timeSaved_nonneg batch⟩
  intro other hperm
  have hne2 : other ≠ [] := by
    intro h
    rw [h] at hperm
    exact hne hperm.symm.eq_nil
  have hcard : (other.map Order.Chassis_Type).toFinset = (df.map Order.Chassis_Type).toFinset :=
    List.toFinset_eq_of_perm _ _ (hperm.map _)
  have hlb := setup_lower_bound other hne2
  rw [hcard] at hlb
  show (calculate_schedule_metrics (df.mergeSort chassisLE)).setup_time ≤ _
  rw [optimized_setup df hne]
  exact hlb

theorem C2_grouping_minimal_witness :
    2 ≤ demoBatch.length
  ∧ 2 ≤ (demoBatch.map Order.Chassis_Type).toFinset.card
  ∧ (calculate_schedule_metrics (run_maestro_agent demoBatch).1).setup_time = 60 :=
  ⟨by decide, by decide,
    by rw [(C2_grouping_minimal demoBatch (by decide) (by decide)).1]; decide⟩

/-- C3: the agent's output is a permutation of the batch, sorted by chassis
type, and stable: for each chassis type the filtered subsequence is exactly
the batch's original subsequence of that type. -/
theorem C3_stable_permutation_sorted (df : List Order) :
    List.Perm (run_maestro_agent df).1 df
  ∧ ((run_maestro_agent df).1.map Order.Chassis_Type).Pairwise (· ≤ ·)
  ∧ ∀ t : String,
      ((run_maestro_agent df).1.filter fun o => decide (o.Chassis_Type = t))
        = df.filter fun o => decide (o.Chassis_Type = t) :=
  ⟨List.mergeSort_perm df chassisLE, mergeSort_types_sorted df,
    fun t => mergeSort_filter_chassis df t⟩

lemma storedAdditionalProfit_eq (orders : List Order) (ts : ℤ) (m : ℚ)
    (hm : mean_profit orders = some m) :
    storedAdditionalProfit orders ts = max 0 ((ts : ℚ) * (m / 2)) := by
  simp only [storedAdditionalProfit, hm]
  rcases lt_or_le 0 ((ts : ℚ) * (m / 2)) with h | h
  · simp [h, max_eq_right h.le]
  · simp [not_lt.mpr h, max_eq_left h]

/-- C4 counterexample: on `demoBatch` (time saved 60, mean profit 100,
30 units over 70 production minutes) the run handler stores
`time_saved * (mean / 2) = 3000`, while the claimed formula
`max(0, floor(time_saved * units_per_minute) * mean)` evaluates to
`floor(60 * 3/7) * 100 = 2500`. -/
lemma demoBatch_mean : mean_profit demoBatch = some 100 := by
  rw [mean_profit, if_neg (by decide : ¬demoBatch = [])]
  norm_num [demoBatch]

lemma demoBatch_upm : units_per_min demoBatch = some (3 / 7) := by
  rw [units_per_min, safeDiv]
  norm_num [demoBatch]

theorem C4_profit_formula_counterexample :
    (runAgentStep (initState demoBatch)).history
        = [{ Run := 1, TimeSavedMins := 60, AdditionalProfit := 3000 }]
  ∧ specAdditionalProfit demoBatch (timeSavedOf demoBatch) = 2500
  ∧ storedAdditionalProfit demoBatch (timeSavedOf demoBatch)
      ≠ specAdditionalProfit demoBatch (timeSavedOf demoBatch) := by
  have h := demoBatch_timeSaved
  have hstored : storedAdditionalProfit demoBatch (60 : ℤ) = 3000 := by
    rw [storedAdditionalProfit_eq demoBatch 60 100 demoBatch_mean]
    norm_num
  have hspec : specAdditionalProfit demoBatch (60 : ℤ) = 2500 := by
    simp only [specAdditionalProfit, demoBatch_upm, demoBatch_mean]
    rw [show ((60 : ℤ) : ℚ) * (3 / 7) = 180 / 7 by norm_num]
    rw [show ⌊(180 / 7 : ℚ)⌋ = 25 from by norm_num [Int.floor_eq_iff]]
    norm_num
  refine ⟨?_, by rw [h]; exact hspec, by rw [h, hstored, hspec]; norm_num⟩
  simp [runAgentStep, initState, h, hstored]

/-- C4 amended: each run appends a record storing the unclamped
`time_saved` and an additional profit of
`max(0, time_saved * (mean profit per unit / 2))`. -/
theorem C4_stored_record (s : SessionState) (hne : s.orders ≠ []) :
    ∃ m : ℚ, mean_profit s.orders = some m
      ∧ (runAgentStep s).history
          = s.history ++
            [{ Run := s.history.length + 1
               TimeSavedMins := timeSavedOf s.orders
               AdditionalProfit := max 0 ((timeSavedOf s.orders : ℚ) * (m / 2)) }] := by
  have hm : mean_profit s.orders
      = some (((s.orders.map fun o => (o.Profit_Per_Unit : ℚ)).sum) / s.orders.length) := by
    simp [mean_profit, hne]
  exact ⟨_, hm, by rw [show (runAgentStep s).history = s.history ++ [_] from rfl,
    storedAdditionalProfit_eq s.orders _ _ hm]⟩

theorem C4_stored_record_witness :
    (initState demoBatch).orders ≠ []
  ∧ ∃ m : ℚ, mean_profit (initState demoBatch).orders = some m
      ∧ (runAgentStep (initState demoBatch)).history
          = (initState demoBatch).history ++
            [{ Run := (initState demoBatch).history.length + 1
               TimeSavedMins := timeSavedOf (initState demoBatch).orders
               AdditionalProfit := max 0
                 ((timeSavedOf (initState demoBatch).orders : ℚ) * (m / 2)) }] :=
  ⟨by decide, C4_stored_record (initState demoBatch) (by decide)⟩

/-- C5: at zero total production time (the empty batch) the source divides
the quantity sum by the zero production-time sum with no guard, so the rate
is the undefined `0/0` (`none` in the model), not the guarded zero the
specification requires. -/
theorem C5_zero_denominator_unguarded : units_per_min [] = none := by
  simp [units_per_min, safeDiv]

/-- Run numbers of every reachable history are exactly `1, 2, ..., n`. -/
lemma history_numbers {s : SessionState} (h : Reachable s) :
    s.history.map RunRecord.Run = List.range' 1 s.history.length := by
  induction h with
  | init orders => rfl
  | regen newOrders _ _ => rfl
  | @run s₀ _ ih =>
      show (s₀.history ++ [_]).map RunRecord.Run = _
      rw [List.map_append, ih]
      have hlen : (runAgentStep s₀).history.length = s₀.history.length + 1 := by
        simp [runAgentStep]
      rw [hlen, List.range'_1_concat, Nat.add_comm 1 s₀.history.length]
      rfl

/-- C7: each press of the run button appends exactly one record, whose run
number is the prior history length plus one; consequently every reachable
history carries the run numbers `1, 2, ..., n` in positional order. -/
theorem C7_run_numbering (s : SessionState) (h : Reachable s) :
    ((runAgentStep s).history = s.history ++
        [{ Run := s.history.length + 1
           TimeSavedMins := timeSavedOf s.orders
           AdditionalProfit := storedAdditionalProfit s.orders (timeSavedOf s.orders) }])
  ∧ s.history.map RunRecord.Run = List.range' 1 s.history.length :=
  ⟨rfl, history_numbers h⟩

theorem C7_run_numbering_witness :
    ((runAgentStep (runAgentStep (initState demoBatch))).history
        = (runAgentStep (initState demoBatch)).history ++
          [{ Run := (runAgentStep (initState demoBatch)).history.length + 1
             TimeSavedMins := timeSavedOf (runAgentStep (initState demoBatch)).orders
             AdditionalProfit := storedAdditionalProfit
               (runAgentStep (initState demoBatch)).orders
               (timeSavedOf (runAgentStep (initState demoBatch)).orders) }])
  ∧ (runAgentStep (initState demoBatch)).history.map RunRecord.Run
      = List.range' 1 (runAgentStep (initState demoBatch)).history.length :=
  C7_run_numbering (runAgentStep (initState demoBatch))
    (Reachable.run (Reachable.init demoBatch))

/-- C8: regenerating the batch leaves a state with no optimized schedule,
no reasoning, and an empty run history, from any prior session state. -/
theorem C8_regenerate_resets (s : SessionState) (newOrders : List Order) :
    (generateNewOrderList s newOrders).optimized_schedule = none
  ∧ (generateNewOrderList s newOrders).reasoning = none
  ∧ (generateNewOrderList s newOrders).history = [] :=
  ⟨rfl, rfl, rfl⟩

lemma mem_generated {rc : ℕ → Fin 3} {rq rpg rpo : ℕ → ℕ} {o : Order}
    (ho : o ∈ get_production_orders rc rq rpg rpo) :
    o.Production_Time_Mins = o.Quantity * 2 ∧ 10 ≤ o.Quantity ∧ o.Quantity ≤ 50 := by
  simp only [get_production_orders, List.mem_map, List.mem_range] at ho
  obtain ⟨i, _, rfl⟩ := ho
  refine ⟨rfl, ?_, ?_⟩ <;> dsimp only <;> omega

lemma generated_length (rc : ℕ → Fin 3) (rq rpg rpo : ℕ → ℕ) :
    (get_production_orders rc rq rpg rpo).length = 10 := by
  simp [get_production_orders]

lemma sum_time_eq_two_mul (l : List Order)
    (h : ∀ o ∈ l, o.Production_Time_Mins = o.Quantity * 2) :
    (l.map Order.Production_Time_Mins).sum = 2 * (l.map Order.Quantity).sum := by
  induction l with
  | nil => simp
  | cons a t ih =>
      have ha := h a (List.mem_cons_self a t)
      have ih' := ih fun o ho => h o (List.mem_cons_of_mem a ho)
      simp only [List.map_cons, List.sum_cons, ih', ha]
      ring

lemma sum_qty_lower (l : List Order) (h : ∀ o ∈ l, 10 ≤ o.Quantity) :
    10 * l.length ≤ (l.map Order.Quantity).sum := by
  induction l with
  | nil => simp
  | cons a t ih =>
      have ha := h a (List.mem_cons_self a t)
      have ih' := ih fun o ho => h o (List.mem_cons_of_mem a ho)
      simp only [List.map_cons, List.sum_cons, List.length_cons]
      omega

/-- C10: every generated batch has at least 200 minutes of total production
time (10 orders, quantity at least 10, two minutes per unit), so the
units-per-minute division on a generated batch never sees a zero
denominator. -/
theorem C10_generated_denominator_positive (rc : ℕ → Fin 3) (rq rpg rpo : ℕ → ℕ) :
    200 ≤ ((get_production_orders rc rq rpg rpo).map Order.Production_Time_Mins).sum
  ∧ (units_per_min (get_production_orders rc rq rpg rpo)).isSome := by
  have hq : ∀ o ∈ get_production_orders rc rq rpg rpo, 10 ≤ o.Quantity :=
    fun o ho => (mem_generated ho).2.1
  have ht : ∀ o ∈ get_production_orders rc rq rpg rpo,
      o.Production_Time_Mins = o.Quantity * 2 := fun o ho => (mem_generated ho).1
  have h1 := sum_qty_lower _ hq
  have h2 := sum_time_eq_two_mul _ ht
  rw [generated_length] at h1
  have h200 : 200 ≤ ((get_production_orders rc rq rpg rpo).map Order.Production_Time_Mins).sum := by
    omega
  refine ⟨h200, ?_⟩
  have hcast : ((get_production_orders rc rq rpg rpo).map
      fun o => (o.Production_Time_Mins : ℚ)).sum
      = (((get_production_orders rc rq rpg rpo).map Order.Production_Time_Mins).sum : ℚ) := by
    rw [Nat.cast_list_sum, List.map_map]
    rfl
  have hne : ((get_production_orders rc rq rpg rpo).map
      fun o => (o.Production_Time_Mins : ℚ)).sum ≠ 0 := by
    rw [hcast]
    exact Nat.cast_ne_zero.mpr (by omega)
  rw [units_per_min, safeDiv, if_neg hne]
  rfl

/-- C9: a generated batch's quantity-to-production-time ratio is exactly
one half (each order takes two minutes per unit), so its additional-units
figure is exactly `floor(time_saved / 2)`. -/
theorem C9_generated_rate_half (rc : ℕ → Fin 3) (rq rpg rpo : ℕ → ℕ) :
    units_per_min (get_production_orders rc rq rpg rpo) = some (1 / 2)
  ∧ additional_units (get_production_orders rc rq rpg rpo)
      = some ⌊(timeSavedOf (get_production_orders rc rq rpg rpo) : ℚ) / 2⌋ := by
  have hq : ∀ o ∈ get_production_orders rc rq rpg rpo, 10 ≤ o.Quantity :=
    fun o ho => (mem_generated ho).2.1
  have ht : ∀ o ∈ get_production_orders rc rq rpg rpo,
      o.Production_Time_Mins = o.Quantity * 2 := fun o ho => (mem_generated ho).1
  have h1 := sum_qty_lower _ hq
  have h2 := sum_time_eq_two_mul _ ht
  rw [generated_length] at h1
  have hcastQ : ((get_production_orders rc rq rpg rpo).map fun o => (o.Quantity : ℚ)).sum
      = (((get_production_orders rc rq rpg rpo).map Order.Quantity).sum : ℚ) := by
    rw [Nat.cast_list_sum, List.map_map]
    rfl
  have hcastT : ((get_production_orders rc rq rpg rpo).map
      fun o => (o.Production_Time_Mins : ℚ)).sum
      = (((get_production_orders rc rq rpg rpo).map Order.Production_Time_Mins).sum : ℚ) := by
    rw [Nat.cast_list_sum, List.map_map]
    rfl
  have hQpos : (0 : ℚ) < (((get_production_orders rc rq rpg rpo).map Order.Quantity).sum : ℚ) := by
    exact_mod_cast Nat.lt_of_lt_of_le (by norm_num) h1
  have hTne : ((get_production_orders rc rq rpg rpo).map
      fun o => (o.Production_Time_Mins : ℚ)).sum ≠ 0 := by
    rw [hcastT]
    exact Nat.cast_ne_zero.mpr (by omega)
  have hupm : units_per_min (get_production_orders rc rq rpg rpo) = some (1 / 2) := by
    rw [units_per_min, safeDiv, if_neg hTne, Option.some_inj, hcastQ, hcastT, h2,
      Nat.cast_mul, Nat.cast_ofNat, div_mul_eq_div_div_swap,
      div_self (ne_of_gt hQpos)]
  refine ⟨hupm, ?_⟩
  rw [additional_units, hupm]
  have hts := timeSaved_nonneg (get_production_orders rc rq rpg rpo)
  have hnn : (0 : ℚ) ≤ (timeSavedOf (get_production_orders rc rq rpg rpo) : ℚ) * (1 / 2) := by
    have h0 : (0 : ℚ) ≤ (timeSavedOf (get_production_orders rc rq rpg rpo) : ℚ) := by
      exact_mod_cast hts
    linarith
  show some (pyInt ((timeSavedOf (get_production_orders rc rq rpg rpo) : ℚ) * (1 / 2)))
      = some ⌊(timeSavedOf (get_production_orders rc rq rpg rpo) : ℚ) / 2⌋
  rw [pyInt, if_pos hnn, mul_one_div]

end Maestro
